import Mathlib

/-!
# Shallow embedding of the minirel buffer manager (src/buf.C)

This file embeds the buffer pool manager of `src/buf.C` in Lean 4 and
verifies a list of behavioural claims against it.

The repository ships only `buf.C`; the declarations it relies on
(`buf.h`: `BufDesc`, `BufHashTbl`, `BufMgr::advanceClock`, `BufDesc::Set`,
`BufDesc::Clear`; `error.h`: the `Status` enumeration; the external `File`
collaborator of `page.h`/`db.h`) are not in the tree.  Those parts are
modelled from the specification (spec.md sections 3, 4.2, 4.3 and 6) and
are marked `Modelled from the spec:` in their doc comments.  Everything in
`buf.C` itself is translated statement by statement.

Conventions of the embedding:
* C++ `int` fields that the code can drive below zero (`pinCnt`, page
  numbers) are `Int`; array indices are `Nat`.
* A `File*` is a `FileId` (`Nat`); a possibly-NULL `File*` is
  `Option FileId`.
* Page content is opaque and modelled as a single `Int` token
  (`memset 0` at construction gives content `0`).
* Out parameters (`int& frame`, `Page*& page`) become extra components of
  the result; a `Page*` handle into `bufPool` is returned as the frame
  index.  An out parameter the callee never assigns is returned as `none`.
* Calling a `File` method through a NULL pointer is undefined behaviour in
  C++; the model returns `Status.UNIXERR` there.  No claim exercises such a
  call (the victim-scan loop of `allocBuf` is dead code, see
  `allocBuf_eq` below).
-/

/-- Modelled from the spec: the status codes of `error.h` used by `buf.C`
(section 6: `OK`, I/O failure (`UNIXERR`), `BUFFEREXCEEDED`, `PAGEPINNED`,
`BADBUFFER`, directory miss (`HASHNOTFOUND`), duplicate-insert internal
error (`HASHTBLERROR`)). -/
inductive Status where
  | OK
  | UNIXERR
  | BUFFEREXCEEDED
  | PAGEPINNED
  | BADBUFFER
  | HASHNOTFOUND
  | HASHTBLERROR
  deriving DecidableEq, Repr

/-- Identity of a `File` object (a non-NULL `File*`). -/
abbrev FileId := Nat

/-- Opaque content of one fixed-size page buffer. -/
abbrev Page := Int

/-- Modelled from the spec: the buffer frame descriptor `BufDesc` of
`buf.h` (spec section 3, FrameDescriptor): stable frame index, optional
owning file, page number, valid/dirty/reference bits and the pin count.
`pinCnt` is a C++ `int`, hence `Int` here. -/
structure BufDesc where
  frameNo : Nat
  file : Option FileId
  pageNo : Int
  valid : Bool
  dirty : Bool
  refbit : Bool
  pinCnt : Int
  deriving DecidableEq, Repr

/-- The all-zero descriptor produced by `memset(bufTable, 0, ...)` in the
`BufMgr` constructor, before `frameNo` is assigned. -/
def BufDesc.zeroed : BufDesc :=
  { frameNo := 0, file := none, pageNo := 0, valid := false, dirty := false
    refbit := false, pinCnt := 0 }

/-- Modelled from the spec: `BufDesc::Set(file, pageNo)` of `buf.h`.  Spec
4.3: on a miss / allocation the frame is marked valid with `pinCount = 1`
and `referenceBit` set, `dirty` left false. -/
def BufDesc.Set (d : BufDesc) (f : FileId) (p : Int) : BufDesc :=
  { d with file := some f, pageNo := p, valid := true, dirty := false
           refbit := true, pinCnt := 1 }

/-- Modelled from the spec: `BufDesc::Clear()` of `buf.h`.  Spec section 3,
Lifecycle: eviction clears validity, dirty, reference bit and pin count and
frees the frame. -/
def BufDesc.Clear (d : BufDesc) : BufDesc :=
  { d with file := none, pageNo := -1, valid := false, dirty := false
           refbit := false, pinCnt := 0 }

/-- Modelled from the spec: the state of one external `File` (spec section
6): the set of allocated pages with their on-disk contents, plus the next
page number to hand out. -/
structure FileState where
  nextPageNo : Int
  pages : List (Int × Page)
  deriving DecidableEq, Repr

/-- The collection of open files, keyed by `FileId`. -/
abbrev Files := List (FileId × FileState)

/-- Look up the state of file `f`. -/
def Files.lookupFile (fs : Files) (f : FileId) : Option FileState :=
  (fs.find? (fun e => e.1 = f)).map (·.2)

/-- Replace the state of file `f`. -/
def Files.setFile (fs : Files) (f : FileId) (st : FileState) : Files :=
  fs.map (fun e => if e.1 = f then (f, st) else e)

/-- Whether page `p` of file `f` is currently allocated on disk. -/
def Files.hasPage (fs : Files) (f : FileId) (p : Int) : Bool :=
  match fs.lookupFile f with
  | none => false
  | some st => (st.pages.find? (fun e => e.1 = p)).isSome

/-- The on-disk content of page `p` of file `f`, when allocated. -/
def Files.getPage (fs : Files) (f : FileId) (p : Int) : Option Page :=
  match fs.lookupFile f with
  | none => none
  | some st => (st.pages.find? (fun e => e.1 = p)).map (·.2)

/-- Modelled from the spec: `File::readPage(pageNumber, buffer)` (spec
section 6).  Reading an unallocated page, or through an invalid file, is an
I/O failure.  The read does not change any file state. -/
def Files.readPage (fs : Files) (f : Option FileId) (p : Int) :
    Status × Option Page :=
  match f with
  | none => (Status.UNIXERR, none)
  | some f =>
    match fs.getPage f p with
    | none => (Status.UNIXERR, none)
    | some c => (Status.OK, some c)

/-- Modelled from the spec: `File::writePage(pageNumber, buffer)` (spec
section 6).  Writing an unallocated page, or through a NULL file pointer,
is an I/O failure and leaves the files unchanged. -/
def Files.writePage (fs : Files) (f : Option FileId) (p : Int) (c : Page) :
    Files × Status :=
  match f with
  | none => (fs, Status.UNIXERR)
  | some f =>
    match fs.lookupFile f with
    | none => (fs, Status.UNIXERR)
    | some st =>
      if (st.pages.find? (fun e => e.1 = p)).isSome then
        (fs.setFile f
          { st with pages := st.pages.map (fun e => if e.1 = p then (p, c) else e) },
         Status.OK)
      else (fs, Status.UNIXERR)

/-- Modelled from the spec: `File::allocatePage(pageNo)` (spec section 6):
hands out a fresh page number, status-bearing.  The fresh page's content
starts as `0`. -/
def Files.allocatePage (fs : Files) (f : FileId) : Files × Status × Int :=
  match fs.lookupFile f with
  | none => (fs, Status.UNIXERR, 0)
  | some st =>
    let p := st.nextPageNo
    (fs.setFile f { nextPageNo := p + 1, pages := (p, 0) :: st.pages },
     Status.OK, p)

/-- Modelled from the spec: `File::disposePage(pageNo)` (spec section 6):
deallocates the page number in the file. -/
def Files.disposePage (fs : Files) (f : Option FileId) (p : Int) :
    Files × Status :=
  match f with
  | none => (fs, Status.UNIXERR)
  | some f =>
    match fs.lookupFile f with
    | none => (fs, Status.UNIXERR)
    | some st =>
      (fs.setFile f { st with pages := st.pages.filter (fun e => ¬ e.1 = p) },
       Status.OK)

/-- One entry of the buffer hash table: key = (file, page number), value =
frame index.  The key's file component is an `Option` because `buf.C` can
pass a NULL `File*` to the table (dead code in `allocBuf`). -/
abbrev HashEntry := (Option FileId × Int) × Nat

/-- Modelled from the spec: `BufHashTbl::lookup` (spec 4.2): maps (file,
page number) to a frame index; a miss is `HASHNOTFOUND`. -/
def hashLookup (t : List HashEntry) (f : Option FileId) (p : Int) : Option Nat :=
  (t.find? (fun e => e.1 = (f, p))).map (·.2)

/-- Modelled from the spec: `BufHashTbl::insert` (spec 4.2): fails with a
duplicate-key error if the key already exists, else records the mapping. -/
def hashInsert (t : List HashEntry) (f : Option FileId) (p : Int) (n : Nat) :
    List HashEntry × Status :=
  match hashLookup t f p with
  | some _ => (t, Status.HASHTBLERROR)
  | none => (((f, p), n) :: t, Status.OK)

/-- Modelled from the spec: `BufHashTbl::remove` (spec 4.2): removes the
entry if present; tolerates absence. -/
def hashRemove (t : List HashEntry) (f : Option FileId) (p : Int) :
    List HashEntry × Status :=
  match hashLookup t f p with
  | some _ => (t.filter (fun e => ¬ e.1 = (f, p)), Status.OK)
  | none => (t, Status.HASHNOTFOUND)

/-- The whole system state: the `BufMgr` fields of `buf.C`/`buf.h`
(`numBufs`, `bufTable`, `bufPool`, `hashTable`, `clockHand`, the
`bufStats.diskreads` counter) together with the states of the external
files. -/
structure Sys where
  numBufs : Nat
  bufTable : List BufDesc
  bufPool : List Page
  hashTable : List HashEntry
  clockHand : Nat
  diskreads : Nat
  files : Files
  deriving DecidableEq, Repr

/-- The `BufMgr(bufs)` constructor of `buf.C`: zeroed descriptors with
`frameNo := i` and `valid := false`, zeroed page buffers, empty hash
table, `clockHand = bufs - 1`; `fs` is the pre-existing external file
system. -/
def initSys (bufs : Nat) (fs : Files) : Sys :=
  { numBufs := bufs
    bufTable := (List.range bufs).map
      (fun i => { BufDesc.zeroed with frameNo := i, valid := false })
    bufPool := List.replicate bufs 0
    hashTable := []
    clockHand := bufs - 1
    diskreads := 0
    files := fs }

/-- Modelled from the spec: `BufMgr::advanceClock()` of `buf.h` (spec 4.1:
the cursor is advanced modulo the frame count). -/
def advanceClock (s : Sys) : Sys :=
  { s with clockHand := (s.clockHand + 1) % s.numBufs }

/-- `BufMgr::disposePage(file, pageNo)` of `buf.C` lines 186-199: if the
page is buffered, `Clear()` its descriptor; remove the hash entry (status
ignored); finally deallocate the page in the file and return that status.
The `file` argument is `Option` because `allocBuf` calls this with a
possibly-NULL `desc->file`. -/
def BufMgr.disposePage (s : Sys) (f : Option FileId) (p : Int) : Sys × Status :=
  let s1 :=
    match hashLookup s.hashTable f p with
    | some frameNo =>
      { s with bufTable :=
          s.bufTable.set frameNo ((s.bufTable.getD frameNo BufDesc.zeroed).Clear) }
    | none => s
  let s2 := { s1 with hashTable := (hashRemove s1.hashTable f p).1 }
  let (fs', st) := s2.files.disposePage f p
  ({ s2 with files := fs' }, st)

/-- The body of the victim-scan loop of `BufMgr::allocBuf` (`buf.C` lines
78-101), at the current `clockHand`: either `continue` (`none`, possibly
after clearing the reference bit) or `return` with a status and the
optionally-assigned `frame` out parameter. -/
def allocBufBody (s : Sys) : Sys × Option (Status × Option Nat) :=
  let desc := s.bufTable.getD s.clockHand BufDesc.zeroed
  if desc.valid ∧ desc.refbit then
    ({ s with bufTable := s.bufTable.set s.clockHand { desc with refbit := false } },
     none)
  else if desc.valid ∧ desc.pinCnt ≠ 0 then
    (s, none)
  else
    -- write back if dirty, then dispose, then hand out the frame
    let (fs1, st1) :=
      if desc.dirty then s.files.writePage desc.file desc.pageNo
        (s.bufPool.getD s.clockHand 0)
      else (s.files, Status.OK)
    let s1 := { s with files := fs1 }
    let (s2, st2) :=
      if st1 = Status.OK then BufMgr.disposePage s1 desc.file desc.pageNo
      else (s1, st1)
    let frame := if st2 = Status.OK then some desc.frameNo else none
    (s2, some (st2, frame))

/-- The inner `for (; clockHand != initialClockHand; advanceClock())` loop
of `BufMgr::allocBuf` (`buf.C` line 78).  The guard is tested before the
first iteration; the step advances the clock.  `fuel` bounds the recursion
(the loop body can run at most `numBufs` times before the hand returns to
`initialHand`); the pair's second component is `none` when the loop exits
by its guard, `some r` when the body returns `r`.  The `Nat` result counts
how many times the body ran. -/
def allocBufInner (initialHand : Nat) : Nat → Sys → Sys × Option (Status × Option Nat) × Nat
  | 0, s => (s, none, 0)
  | fuel + 1, s =>
    if s.clockHand = initialHand then (s, none, 0)
    else
      match allocBufBody s with
      | (s1, some r) => (s1, some r, 1)
      | (s1, none) =>
        let (s2, r, k) := allocBufInner initialHand fuel (advanceClock s1)
        (s2, r, k + 1)

/-- The outer `for (auto i = 0; i < 2; i++)` loop of `BufMgr::allocBuf`
(`buf.C` line 77): runs the inner loop up to twice; if neither run's body
returns, the function falls through to `return BUFFEREXCEEDED`. -/
def allocBufOuter (initialHand : Nat) : Nat → Sys → Sys × Status × Option Nat × Nat
  | 0, s => (s, Status.BUFFEREXCEEDED, none, 0)
  | i + 1, s =>
    match allocBufInner initialHand s.numBufs s with
    | (s1, some (st, fr), k) => (s1, st, fr, k)
    | (s1, none, k) =>
      let (s2, st, fr, k') := allocBufOuter initialHand i s1
      (s2, st, fr, k + k')

/-- `BufMgr::allocBuf(frame)` of `buf.C` lines 60-106, instrumented with
the number of loop-body visits (the last component; not part of the
source's state): advance the clock, record `initialClockHand` (note: the
source records it AFTER the advance), then run the two bounded scans. -/
def allocBufFull (s : Sys) : Sys × Status × Option Nat × Nat :=
  let s0 := advanceClock s
  allocBufOuter s0.clockHand 2 s0

/-- `BufMgr::allocBuf` without the instrumentation: final state, returned
status, and the `frame` out parameter (`none` when never assigned). -/
def allocBuf (s : Sys) : Sys × Status × Option Nat :=
  let (s1, st, fr, _) := allocBufFull s
  (s1, st, fr)

theorem allocBufInner_at_initial (initialHand : Nat) (fuel : Nat) (s : Sys)
    (h : s.clockHand = initialHand) :
    allocBufInner initialHand fuel s = (s, none, 0) := by
  cases fuel <;> simp [allocBufInner, h]

/-- The inner loop's guard is false on entry (`initialClockHand` is read
after the initial `advanceClock`), so `allocBuf` never runs the loop body:
it advances the clock once and returns `BUFFEREXCEEDED` with the out
parameter unassigned, on every state. -/
theorem allocBufFull_eq (s : Sys) :
    allocBufFull s = (advanceClock s, Status.BUFFEREXCEEDED, none, 0) := by
  simp [allocBufFull, allocBufOuter, allocBufInner_at_initial]

theorem allocBuf_eq (s : Sys) :
    allocBuf s = (advanceClock s, Status.BUFFEREXCEEDED, none) := by
  simp [allocBuf, allocBufFull_eq]

/-- `BufMgr::readPage(file, pageNo, page)` of `buf.C` lines 108-142 (the
pin operation): on a directory hit set the reference bit, bump the pin
count and hand out the frame; on a miss obtain a frame from `allocBuf`,
read the page from the file into it, count the disk read, insert the
directory entry and `Set` the descriptor.  Each step runs only while the
running status is still `OK`; the `page` out parameter is returned as the
frame index, `none` when never assigned. -/
def readPage (s : Sys) (f : FileId) (p : Int) : Sys × Status × Option Nat :=
  match hashLookup s.hashTable (some f) p with
  | some frameNo =>
    let d1 := s.bufTable.getD frameNo BufDesc.zeroed
    let bt1 := s.bufTable.set frameNo { d1 with refbit := true }
    let d2 := bt1.getD frameNo BufDesc.zeroed
    let bt2 := bt1.set frameNo { d2 with pinCnt := d2.pinCnt + 1 }
    ({ s with bufTable := bt2 }, Status.OK, some frameNo)
  | none =>
    let (s1, st1, frOpt) := allocBuf s
    let frameNo := frOpt.getD 0
    let (s2, st2) :=
      if st1 = Status.OK then
        match s1.files.readPage (some f) p with
        | (Status.OK, some c) =>
          ({ s1 with bufPool := s1.bufPool.set frameNo c }, Status.OK)
        | (st, _) => (s1, st)
      else (s1, st1)
    let s3 := if st2 = Status.OK then { s2 with diskreads := s2.diskreads + 1 } else s2
    let (ht, st3) :=
      if st2 = Status.OK then hashInsert s3.hashTable (some f) p frameNo
      else (s3.hashTable, st2)
    let s4 := { s3 with hashTable := ht }
    if st3 = Status.OK then
      ({ s4 with bufTable :=
           s4.bufTable.set frameNo ((s4.bufTable.getD frameNo BufDesc.zeroed).Set f p) },
       Status.OK, some frameNo)
    else (s4, st3, none)

/-- `BufMgr::unPinPage(file, pageNo, dirty)` of `buf.C` lines 144-160:
look the page up; if found, decrement the frame's pin count and OR the
`dirty` argument into its dirty bit; otherwise return the lookup's
failure with nothing changed. -/
def unPinPage (s : Sys) (f : FileId) (p : Int) (dirty : Bool) : Sys × Status :=
  match hashLookup s.hashTable (some f) p with
  | some frameNo =>
    let d1 := s.bufTable.getD frameNo BufDesc.zeroed
    let bt1 := s.bufTable.set frameNo { d1 with pinCnt := d1.pinCnt - 1 }
    let d2 := bt1.getD frameNo BufDesc.zeroed
    let bt2 := bt1.set frameNo { d2 with dirty := d2.dirty || dirty }
    ({ s with bufTable := bt2 }, Status.OK)
  | none => (s, Status.HASHNOTFOUND)

/-- `BufMgr::allocPage(file, pageNo, page)` of `buf.C` lines 162-184:
allocate a page number in the file; if that succeeded, count a disk read,
obtain a frame from `allocBuf`, insert the directory entry and `Set` the
descriptor.  Each later step runs only while the running status is `OK`;
the result carries the `pageNo` and `page` out parameters. -/
def allocPage (s : Sys) (f : FileId) : Sys × Status × Int × Option Nat :=
  let (fs1, st1, p) := s.files.allocatePage f
  let s1 := { s with files := fs1 }
  let s2 := if st1 = Status.OK then { s1 with diskreads := s1.diskreads + 1 } else s1
  let (s3, st2, frOpt) := if st1 = Status.OK then allocBuf s2 else (s2, st1, none)
  let frameNo := frOpt.getD 0
  let (ht, st3) :=
    if st2 = Status.OK then hashInsert s3.hashTable (some f) p frameNo
    else (s3.hashTable, st2)
  let s4 := { s3 with hashTable := ht }
  if st3 = Status.OK then
    ({ s4 with bufTable :=
         s4.bufTable.set frameNo ((s4.bufTable.getD frameNo BufDesc.zeroed).Set f p) },
     Status.OK, p, some frameNo)
  else (s4, st3, p, none)

/-- The `for (int i = 0; i < numBufs; i++)` loop of `BufMgr::flushFile`
(`buf.C` lines 204-227), with `fuel = numBufs - i` frames left to visit.
For a valid frame of `file`: pinned means `PAGEPINNED` at once; a dirty
frame is written back through its own file pointer (a failing write is
returned at once) and its dirty bit cleared; then the directory entry is
removed and the frame invalidated (`file = NULL`, `pageNo = -1`,
`valid = false`).  An invalid frame whose `file` is `file` means
`BADBUFFER`. -/
def flushLoop (f : FileId) : Nat → Nat → Sys → Sys × Status
  | 0, _, s => (s, Status.OK)
  | fuel + 1, i, s =>
    let d := s.bufTable.getD i BufDesc.zeroed
    if d.valid = true ∧ d.file = some f then
      if d.pinCnt > 0 then (s, Status.PAGEPINNED)
      else
        let (fs1, st1, d1) :=
          if d.dirty then
            match s.files.writePage d.file d.pageNo (s.bufPool.getD i 0) with
            | (fs', st') =>
              (fs', st', if st' = Status.OK then { d with dirty := false } else d)
          else (s.files, Status.OK, d)
        if st1 ≠ Status.OK then ({ s with files := fs1 }, st1)
        else
          let ht1 := (hashRemove s.hashTable (some f) d1.pageNo).1
          let d2 := { d1 with file := none, pageNo := -1, valid := false }
          flushLoop f fuel (i + 1)
            { s with files := fs1, hashTable := ht1, bufTable := s.bufTable.set i d2 }
    else if d.valid = false ∧ d.file = some f then (s, Status.BADBUFFER)
    else flushLoop f fuel (i + 1) s

/-- `BufMgr::flushFile(file)` of `buf.C` lines 201-230. -/
def flushFile (s : Sys) (f : FileId) : Sys × Status :=
  flushLoop f s.numBufs 0 s

/-- A pin (`readPage`) or unpin (`unPinPage`) call, for stating properties
of call sequences. -/
inductive BufOp where
  | pin (f : FileId) (p : Int)
  | unpin (f : FileId) (p : Int) (d : Bool)
  deriving DecidableEq, Repr

/-- Run one call, keeping the resulting state. -/
def runOp (s : Sys) : BufOp → Sys
  | .pin f p => (readPage s f p).1
  | .unpin f p d => (unPinPage s f p d).1

/-- Run a sequence of pin/unpin calls from state `s`. -/
def runOps (s : Sys) (ops : List BufOp) : Sys :=
  ops.foldl runOp s

/-! ## List indexing helpers -/

theorem getD_set_self {α : Type} (l : List α) (n : Nat) (a d : α)
    (h : n < l.length) : (l.set n a).getD n d = a := by
  simp [List.getD_eq_getElem?_getD, List.getElem?_set_self, h]

theorem getD_set_ne {α : Type} (l : List α) (m n : Nat) (a d : α)
    (h : m ≠ n) : (l.set m a).getD n d = l.getD n d := by
  simp [List.getD_eq_getElem?_getD, List.getElem?_set_ne h]

/-! ## Concrete states used by the counterexample evaluations -/

/-- One file (id 0) with pages 1-4 allocated, contents 11-14. -/
def exampleFiles : Files :=
  [(0, { nextPageNo := 10, pages := [(1, 11), (2, 12), (3, 13), (4, 14)] })]

/-- A 3-frame pool holding pages 1, 2, 3 of file 0, each pinned once, as
after three successful pins on a correct pool. -/
def pinnedSys : Sys :=
  { numBufs := 3
    bufTable := [
      { frameNo := 0, file := some 0, pageNo := 1, valid := true
        dirty := false, refbit := true, pinCnt := 1 },
      { frameNo := 1, file := some 0, pageNo := 2, valid := true
        dirty := false, refbit := true, pinCnt := 1 },
      { frameNo := 2, file := some 0, pageNo := 3, valid := true
        dirty := false, refbit := true, pinCnt := 1 }]
    bufPool := [11, 12, 13]
    hashTable := [((some 0, 1), 0), ((some 0, 2), 1), ((some 0, 3), 2)]
    clockHand := 2
    diskreads := 3
    files := exampleFiles }

/-- A 1-frame pool whose single frame holds page 2 of file 0, unpinned,
dirty (in-memory content 99), reference bit clear: the ideal eviction
victim.  The clock hand rests on frame 0. -/
def dirtySys : Sys :=
  { numBufs := 1
    bufTable := [
      { frameNo := 0, file := some 0, pageNo := 2, valid := true
        dirty := true, refbit := false, pinCnt := 0 }]
    bufPool := [99]
    hashTable := [((some 0, 2), 0)]
    clockHand := 0
    diskreads := 1
    files := exampleFiles }

/-! ## C1, C2, C3: the victim scan of `allocBuf` is dead code -/

/-- C1.  The claim says `allocBuf` returns a free frame with `OK` whenever
one exists, and that in the 3-frame scenario (pages 1, 2, 3 pinned, page 2
unpinned dirty) a pin of page 4 then succeeds.  The code records
`initialClockHand` only after the initial `advanceClock`, so the victim loop
never runs: `allocBuf` returns `BUFFEREXCEEDED` on a completely free fresh
pool, and in the claimed scenario the pin of page 4 fails. -/
theorem allocBuf_never_finds_victim :
    (allocBuf (initSys 3 exampleFiles)).2.1 = Status.BUFFEREXCEEDED ∧
    ((initSys 3 exampleFiles).bufTable.getD 0 BufDesc.zeroed).valid = false ∧
    (readPage (unPinPage pinnedSys 0 2 true).1 0 4).2.1 = Status.BUFFEREXCEEDED ∧
    ((unPinPage pinnedSys 0 2 true).1.bufTable.getD 1 BufDesc.zeroed).valid = true ∧
    ((unPinPage pinnedSys 0 2 true).1.bufTable.getD 1 BufDesc.zeroed).pinCnt = 0 := by
  refine ⟨rfl, rfl, ?_, rfl, rfl⟩
  rfl

/-- C2.  The claim says `allocPage` on a fresh pool returns `OK` with a
valid frame pinned once and not dirty.  In the code, `allocBuf` never finds
a frame, so `allocPage` returns `BUFFEREXCEEDED` and the frame table stays
entirely free. -/
theorem allocPage_fresh_pool_exceeds :
    (allocPage (initSys 3 exampleFiles) 0).2.1 = Status.BUFFEREXCEEDED ∧
    (allocPage (initSys 3 exampleFiles) 0).1.bufTable
      = (initSys 3 exampleFiles).bufTable ∧
    (allocPage (initSys 3 exampleFiles) 0).2.2.2 = none := by
  exact ⟨rfl, by rfl, rfl⟩

/-- C3.  The claim describes eviction write-back preserving content for a
later re-pin, without deallocating the page in the File.  In the code no
eviction ever happens: on `dirtySys` (one valid, unpinned, unreferenced
dirty frame — the ideal victim) `allocBuf` still returns `BUFFEREXCEEDED`,
touching neither the frame table nor the file, so a pin miss can never
evict and a once-evicted page could never be re-pinned.  Moreover the
victim-handling body that the loop was meant to run (`allocBufBody`) would
deallocate the page in the File via `BufMgr::disposePage`: after it, page 2
of file 0 is gone from the file. -/
theorem eviction_roundTrip_broken :
    (allocBuf dirtySys).2.1 = Status.BUFFEREXCEEDED ∧
    (allocBuf dirtySys).1.files = dirtySys.files ∧
    (allocBuf dirtySys).1.bufTable = dirtySys.bufTable ∧
    (readPage dirtySys 0 3).2.1 = Status.BUFFEREXCEEDED ∧
    (allocBufBody dirtySys).2 = some (Status.OK, some 0) ∧
    (allocBufBody dirtySys).1.files.hasPage 0 2 = false := by
  refine ⟨rfl, by rfl, by rfl, by rfl, by rfl, by rfl⟩

/-! ## C7, C10: the directory-hit path of `readPage` -/

/-- C7.  On a directory hit, `readPage` sets the hit frame's reference
bit, increments its pin count by exactly one, hands out that frame and
returns `OK`. -/
theorem readPage_hit_spec (s : Sys) (f : FileId) (p : Int) (n : Nat)
    (hl : hashLookup s.hashTable (some f) p = some n)
    (hn : n < s.bufTable.length) :
    (readPage s f p).2.1 = Status.OK ∧
    (readPage s f p).2.2 = some n ∧
    ((readPage s f p).1.bufTable.getD n BufDesc.zeroed).refbit = true ∧
    ((readPage s f p).1.bufTable.getD n BufDesc.zeroed).pinCnt
      = (s.bufTable.getD n BufDesc.zeroed).pinCnt + 1 := by
  have hn1 : n < (s.bufTable.set n
      { s.bufTable.getD n BufDesc.zeroed with refbit := true }).length := by
    simpa using hn
  simp only [readPage, hl]
  refine ⟨trivial, trivial, ?_, ?_⟩ <;>
    rw [getD_set_self _ _ _ _ hn1, getD_set_self _ _ _ _ hn]

/-- C7 witness: the hit path on `pinnedSys`, page 2 (frame 1). -/
theorem readPage_hit_spec_witness :
    (readPage pinnedSys 0 2).2.1 = Status.OK ∧
    (readPage pinnedSys 0 2).2.2 = some 1 ∧
    ((readPage pinnedSys 0 2).1.bufTable.getD 1 BufDesc.zeroed).refbit = true ∧
    ((readPage pinnedSys 0 2).1.bufTable.getD 1 BufDesc.zeroed).pinCnt
      = (pinnedSys.bufTable.getD 1 BufDesc.zeroed).pinCnt + 1 :=
  readPage_hit_spec pinnedSys 0 2 1 (by decide) (by decide)

/-- C10.  On a directory hit, `readPage` performs no File interaction and
changes nothing but the hit frame's reference bit and pin count: page
buffers, directory, clock hand, statistics, files, every other frame, and
the hit frame's remaining fields are untouched. -/
theorem readPage_hit_frame_effect (s : Sys) (f : FileId) (p : Int) (n : Nat)
    (hl : hashLookup s.hashTable (some f) p = some n)
    (hn : n < s.bufTable.length) :
    (readPage s f p).1.files = s.files ∧
    (readPage s f p).1.bufPool = s.bufPool ∧
    (readPage s f p).1.hashTable = s.hashTable ∧
    (readPage s f p).1.clockHand = s.clockHand ∧
    (readPage s f p).1.diskreads = s.diskreads ∧
    (readPage s f p).1.numBufs = s.numBufs ∧
    (∀ k, k ≠ n → (readPage s f p).1.bufTable.getD k BufDesc.zeroed
      = s.bufTable.getD k BufDesc.zeroed) ∧
    ((readPage s f p).1.bufTable.getD n BufDesc.zeroed).frameNo
      = (s.bufTable.getD n BufDesc.zeroed).frameNo ∧
    ((readPage s f p).1.bufTable.getD n BufDesc.zeroed).file
      = (s.bufTable.getD n BufDesc.zeroed).file ∧
    ((readPage s f p).1.bufTable.getD n BufDesc.zeroed).pageNo
      = (s.bufTable.getD n BufDesc.zeroed).pageNo ∧
    ((readPage s f p).1.bufTable.getD n BufDesc.zeroed).valid
      = (s.bufTable.getD n BufDesc.zeroed).valid ∧
    ((readPage s f p).1.bufTable.getD n BufDesc.zeroed).dirty
      = (s.bufTable.getD n BufDesc.zeroed).dirty := by
  have hn1 : n < (s.bufTable.set n
      { s.bufTable.getD n BufDesc.zeroed with refbit := true }).length := by
    simpa using hn
  simp only [readPage, hl]
  refine ⟨trivial, trivial, trivial, trivial, trivial, trivial, ?_, ?_, ?_, ?_, ?_, ?_⟩
  · intro k hk
    rw [getD_set_ne _ _ _ _ _ (fun h => hk h.symm),
        getD_set_ne _ _ _ _ _ (fun h => hk h.symm)]
  all_goals rw [getD_set_self _ _ _ _ hn1, getD_set_self _ _ _ _ hn]

/-- C10 witness: the hit path on `pinnedSys`, page 2 (frame 1): frame 0 is
untouched. -/
theorem readPage_hit_frame_effect_witness :
    (readPage pinnedSys 0 2).1.files = pinnedSys.files ∧
    (readPage pinnedSys 0 2).1.bufTable.getD 0 BufDesc.zeroed
      = pinnedSys.bufTable.getD 0 BufDesc.zeroed :=
  ⟨(readPage_hit_frame_effect pinnedSys 0 2 1 (by decide) (by decide)).1,
   (readPage_hit_frame_effect pinnedSys 0 2 1 (by decide) (by decide)).2.2.2.2.2.2.1
     0 (by decide)⟩

/-! ## C6: `unPinPage` -/

/-- C6.  `unPinPage`: a directory hit decrements the frame's pin count by
one and ORs the `dirty` argument into its dirty flag, returning `OK`; a
miss returns the failure `HASHNOTFOUND` with the whole state unchanged. -/
theorem unPinPage_spec (s : Sys) (f : FileId) (p : Int) (d : Bool) :
    (∀ n, hashLookup s.hashTable (some f) p = some n →
      n < s.bufTable.length →
      (unPinPage s f p d).2 = Status.OK ∧
      ((unPinPage s f p d).1.bufTable.getD n BufDesc.zeroed).pinCnt
        = (s.bufTable.getD n BufDesc.zeroed).pinCnt - 1 ∧
      ((unPinPage s f p d).1.bufTable.getD n BufDesc.zeroed).dirty
        = ((s.bufTable.getD n BufDesc.zeroed).dirty || d)) ∧
    (hashLookup s.hashTable (some f) p = none →
      unPinPage s f p d = (s, Status.HASHNOTFOUND)) := by
  constructor
  · intro n hl hn
    have hn1 : n < (s.bufTable.set n
        { s.bufTable.getD n BufDesc.zeroed with
            pinCnt := (s.bufTable.getD n BufDesc.zeroed).pinCnt - 1 }).length := by
      simpa using hn
    simp only [unPinPage, hl]
    refine ⟨trivial, ?_, ?_⟩ <;>
      rw [getD_set_self _ _ _ _ hn1, getD_set_self _ _ _ _ hn]
  · intro hl
    simp only [unPinPage, hl]

/-- C6 witness: a hit (page 2 of `pinnedSys`) and a miss (page 7). -/
theorem unPinPage_spec_witness :
    ((unPinPage pinnedSys 0 2 true).2 = Status.OK ∧
      ((unPinPage pinnedSys 0 2 true).1.bufTable.getD 1 BufDesc.zeroed).pinCnt
        = (pinnedSys.bufTable.getD 1 BufDesc.zeroed).pinCnt - 1 ∧
      ((unPinPage pinnedSys 0 2 true).1.bufTable.getD 1 BufDesc.zeroed).dirty
        = ((pinnedSys.bufTable.getD 1 BufDesc.zeroed).dirty || true)) ∧
    unPinPage pinnedSys 0 7 true = (pinnedSys, Status.HASHNOTFOUND) :=
  ⟨(unPinPage_spec pinnedSys 0 2 true).1 1 (by decide) (by decide),
   (unPinPage_spec pinnedSys 0 7 true).2 (by decide)⟩

/-! ## C8: the scan bound of `allocBuf` -/

/-- C8.  `allocBuf` terminates on every pool state: its loop body is
visited at most `2 * numBufs` times (here: zero times, since the loop
guard is false on entry) and it returns either a frame or
`BUFFEREXCEEDED`. -/
theorem allocBuf_two_pass_bound (s : Sys) :
    (allocBufFull s).2.2.2 ≤ 2 * s.numBufs ∧
    ((allocBufFull s).2.1 = Status.BUFFEREXCEEDED ∨
      ∃ i, (allocBufFull s).2.2.1 = some i) := by
  rw [allocBufFull_eq]
  exact ⟨Nat.zero_le _, Or.inl rfl⟩

/-! ## C9: the failure path of `allocPage` -/

theorem lookupFile_setFile_self (fs : Files) (f : FileId) (st0 st : FileState)
    (h : fs.lookupFile f = some st0) :
    (fs.setFile f st).lookupFile f = some st := by
  induction fs with
  | nil => simp [Files.lookupFile] at h
  | cons a t ih =>
    by_cases hf : a.1 = f
    · simp [Files.lookupFile, Files.setFile, List.find?, hf]
    · have h1 : Files.lookupFile (a :: t) f = Files.lookupFile t f := by
        simp [Files.lookupFile, List.find?_cons_of_neg, hf]
      have h2 : Files.setFile (a :: t) f st = a :: Files.setFile t f st := by
        simp [Files.setFile, hf]
      have h3 : Files.lookupFile (a :: Files.setFile t f st) f
          = Files.lookupFile (Files.setFile t f st) f := by
        simp [Files.lookupFile, List.find?_cons_of_neg, hf]
      rw [h2, h3]
      exact ih (h1 ▸ h)

/-- C9.  When `File::allocatePage` succeeds but a later step of
`allocPage` fails (here: `allocBuf`, which always fails), `allocPage`
returns that failure; the new page number stays allocated in the File —
neither deallocated nor buffered — and the frame table, page buffers and
directory are unchanged, with only the disk-read statistic incremented. -/
theorem allocPage_failure_state (s : Sys) (f : FileId) (fst : FileState)
    (hf : s.files.lookupFile f = some fst) :
    (allocPage s f).2.1 = Status.BUFFEREXCEEDED ∧
    (allocPage s f).2.1 ≠ Status.OK ∧
    (allocPage s f).1.bufTable = s.bufTable ∧
    (allocPage s f).1.bufPool = s.bufPool ∧
    (allocPage s f).1.hashTable = s.hashTable ∧
    (allocPage s f).2.2.2 = none ∧
    (allocPage s f).1.files.hasPage f (allocPage s f).2.2.1 = true ∧
    (allocPage s f).1.diskreads = s.diskreads + 1 := by
  have halloc : s.files.allocatePage f
      = (s.files.setFile f
          { nextPageNo := fst.nextPageNo + 1, pages := (fst.nextPageNo, 0) :: fst.pages },
         Status.OK, fst.nextPageNo) := by
    simp [Files.allocatePage, hf]
  have hlk := lookupFile_setFile_self s.files f fst
      { nextPageNo := fst.nextPageNo + 1, pages := (fst.nextPageNo, 0) :: fst.pages } hf
  have hres : allocPage s f =
      ({ numBufs := s.numBufs, bufTable := s.bufTable, bufPool := s.bufPool
         hashTable := s.hashTable, clockHand := (s.clockHand + 1) % s.numBufs
         diskreads := s.diskreads + 1
         files := s.files.setFile f
           { nextPageNo := fst.nextPageNo + 1
             pages := (fst.nextPageNo, 0) :: fst.pages } },
       Status.BUFFEREXCEEDED, fst.nextPageNo, none) := by
    simp [allocPage, halloc, allocBuf_eq, advanceClock]
  rw [hres]
  refine ⟨rfl, by simp, rfl, rfl, rfl, rfl, ?_, rfl⟩
  simp [Files.hasPage, hlk, List.find?]

/-- C9 witness: a fresh 3-frame pool over `exampleFiles`. -/
theorem allocPage_failure_state_witness :
    (allocPage (initSys 3 exampleFiles) 0).2.1 = Status.BUFFEREXCEEDED ∧
    (allocPage (initSys 3 exampleFiles) 0).1.hashTable
      = (initSys 3 exampleFiles).hashTable ∧
    (allocPage (initSys 3 exampleFiles) 0).1.files.hasPage 0
      (allocPage (initSys 3 exampleFiles) 0).2.2.1 = true :=
  ⟨(allocPage_failure_state (initSys 3 exampleFiles) 0 _ rfl).1,
   (allocPage_failure_state (initSys 3 exampleFiles) 0 _ rfl).2.2.2.2.1,
   (allocPage_failure_state (initSys 3 exampleFiles) 0 _ rfl).2.2.2.2.2.2.1⟩

/-! ## C5: pin counts along pin/unpin sequences -/

theorem readPage_empty_hash (s : Sys) (f : FileId) (p : Int)
    (h : s.hashTable = []) : (readPage s f p).1 = advanceClock s := by
  have hl : hashLookup s.hashTable (some f) p = none := by
    rw [h]; rfl
  simp [readPage, hl, allocBuf_eq, advanceClock]

theorem unPinPage_empty_hash (s : Sys) (f : FileId) (p : Int) (d : Bool)
    (h : s.hashTable = []) : (unPinPage s f p d).1 = s := by
  have hl : hashLookup s.hashTable (some f) p = none := by
    rw [h]; rfl
  simp [unPinPage, hl]

/-- The invariant carried along every pin/unpin sequence: the directory is
empty and every pin count is zero (the miss path can never fill a frame,
because `allocBuf` always fails). -/
def PoolUntouched (s : Sys) : Prop :=
  s.hashTable = [] ∧ ∀ d ∈ s.bufTable, d.pinCnt = 0

theorem runOp_preserves (s : Sys) (op : BufOp) (h : PoolUntouched s) :
    PoolUntouched (runOp s op) := by
  cases op with
  | pin f p =>
    rw [runOp, readPage_empty_hash s f p h.1]
    exact ⟨h.1, h.2⟩
  | unpin f p d =>
    rw [runOp, unPinPage_empty_hash s f p d h.1]
    exact h

theorem runOps_preserves (ops : List BufOp) :
    ∀ s : Sys, PoolUntouched s → PoolUntouched (runOps s ops) := by
  induction ops with
  | nil => intro s h; exact h
  | cons op t ih =>
    intro s h
    exact ih (runOp s op) (runOp_preserves s op h)

theorem initSys_untouched (bufs : Nat) (fs : Files) :
    PoolUntouched (initSys bufs fs) := by
  refine ⟨rfl, ?_⟩
  intro d hd
  simp only [initSys, List.mem_map, List.mem_range] at hd
  obtain ⟨i, -, rfl⟩ := hd
  rfl

/-- C5.  Along every sequence of pin/unpin calls from the initial pool
state (in particular every well-formed one), every frame's pin count stays
non-negative, and `allocBuf` never selects a valid frame with positive pin
count as its victim. -/
theorem pin_unpin_pinCnt_invariant (bufs : Nat) (fs : Files) (ops : List BufOp) :
    (∀ d ∈ (runOps (initSys bufs fs) ops).bufTable, 0 ≤ d.pinCnt) ∧
    (∀ i, (allocBuf (runOps (initSys bufs fs) ops)).2.2 = some i →
      ¬(((runOps (initSys bufs fs) ops).bufTable.getD i BufDesc.zeroed).valid = true ∧
        0 < ((runOps (initSys bufs fs) ops).bufTable.getD i BufDesc.zeroed).pinCnt)) := by
  have hinv := runOps_preserves ops (initSys bufs fs) (initSys_untouched bufs fs)
  constructor
  · intro d hd
    rw [hinv.2 d hd]
  · intro i hi
    rw [allocBuf_eq] at hi
    exact absurd hi (by simp)

/-- C5 witness: after a pin and an unpin on a 3-frame pool, frame 0's pin
count is non-negative. -/
theorem pin_unpin_pinCnt_invariant_witness :
    0 ≤ ((runOps (initSys 3 exampleFiles)
        [BufOp.pin 0 1, BufOp.unpin 0 1 true]).bufTable.getD 0 BufDesc.zeroed).pinCnt :=
  (pin_unpin_pinCnt_invariant 3 exampleFiles [BufOp.pin 0 1, BufOp.unpin 0 1 true]).1
    _ (by decide)

/-! ## C4: `flushFile` — auxiliary lemmas -/

theorem hasPage_eq_isSome (fs : Files) (f : FileId) (p : Int) :
    fs.hasPage f p = (fs.getPage f p).isSome := by
  unfold Files.hasPage Files.getPage
  cases fs.lookupFile f with
  | none => rfl
  | some st => simp

theorem find?_map_write_self (pages : List (Int × Page)) (p : Int) (c : Page)
    (h : (pages.find? (fun e => e.1 = p)).isSome = true) :
    (pages.map (fun e => if e.1 = p then (p, c) else e)).find?
      (fun e => e.1 = p) = some (p, c) := by
  induction pages with
  | nil => simp at h
  | cons a t ih =>
    by_cases ha : a.1 = p
    · simp [List.find?, ha]
    · have hfa : (decide (a.1 = p)) = false := by simp [ha]
      simp only [List.find?_cons, hfa] at h
      simp only [List.map_cons, if_neg ha, List.find?_cons, hfa]
      exact ih h

theorem find?_map_write_ne (pages : List (Int × Page)) (p : Int) (c : Page)
    (q : Int) (hq : q ≠ p) :
    (pages.map (fun e => if e.1 = p then (p, c) else e)).find?
      (fun e => e.1 = q) = pages.find? (fun e => e.1 = q) := by
  induction pages with
  | nil => rfl
  | cons a t ih =>
    by_cases ha : a.1 = p
    · have h1 : ¬(p = q) := fun h => hq h.symm
      have h2 : ¬(a.1 = q) := by rw [ha]; exact h1
      simp [List.find?, ha, h1, h2, ih]
    · by_cases hb : a.1 = q
      · simp [List.find?, ha, hb, hq]
      · simp [List.find?, ha, hb, ih]

theorem writePage_of_hasPage (fs : Files) (f : FileId) (p : Int) (c : Page)
    (hp : fs.hasPage f p = true) :
    ∃ st, fs.lookupFile f = some st ∧
      (st.pages.find? (fun e => e.1 = p)).isSome = true ∧
      fs.writePage (some f) p c
        = (fs.setFile f
            { st with pages := st.pages.map (fun e => if e.1 = p then (p, c) else e) },
           Status.OK) := by
  unfold Files.hasPage at hp
  cases hlk : fs.lookupFile f with
  | none => rw [hlk] at hp; exact absurd hp (by simp)
  | some st =>
    rw [hlk] at hp
    have hp' : (st.pages.find? (fun e => e.1 = p)).isSome = true := hp
    refine ⟨st, rfl, hp', ?_⟩
    simp only [Files.writePage, hlk]
    rw [if_pos hp']

theorem writePage_status_ok (fs : Files) (f : FileId) (p : Int) (c : Page)
    (hp : fs.hasPage f p = true) :
    (fs.writePage (some f) p c).2 = Status.OK := by
  obtain ⟨st, -, -, heq⟩ := writePage_of_hasPage fs f p c hp
  rw [heq]

theorem writePage_getPage_self (fs : Files) (f : FileId) (p : Int) (c : Page)
    (hp : fs.hasPage f p = true) :
    (fs.writePage (some f) p c).1.getPage f p = some c := by
  obtain ⟨st, hlk, hfind, heq⟩ := writePage_of_hasPage fs f p c hp
  rw [heq]
  simp [Files.getPage, lookupFile_setFile_self fs f st _ hlk,
    find?_map_write_self st.pages p c hfind]

theorem writePage_getPage_ne (fs : Files) (f : FileId) (p : Int) (c : Page)
    (q : Int) (hq : q ≠ p) (hp : fs.hasPage f p = true) :
    (fs.writePage (some f) p c).1.getPage f q = fs.getPage f q := by
  obtain ⟨st, hlk, -, heq⟩ := writePage_of_hasPage fs f p c hp
  rw [heq]
  simp [Files.getPage, lookupFile_setFile_self fs f st _ hlk, hlk,
    find?_map_write_ne st.pages p c q hq]

theorem writePage_hasPage (fs : Files) (f : FileId) (p : Int) (c : Page)
    (q : Int) (hp : fs.hasPage f p = true) :
    (fs.writePage (some f) p c).1.hasPage f q = fs.hasPage f q := by
  by_cases hq : q = p
  · subst hq
    rw [hasPage_eq_isSome, writePage_getPage_self fs f q c hp, hp]
    rfl
  · rw [hasPage_eq_isSome, hasPage_eq_isSome,
      writePage_getPage_ne fs f p c q hq hp]

theorem mem_hashRemove_imp (t : List HashEntry) (f0 : Option FileId) (p0 : Int)
    (e : HashEntry) (he : e ∈ (hashRemove t f0 p0).1) :
    e ∈ t ∧ e.1 ≠ (f0, p0) := by
  unfold hashRemove at he
  cases hlk : hashLookup t f0 p0 with
  | some n =>
    rw [hlk] at he
    simp only [List.mem_filter, decide_not, Bool.not_eq_eq_eq_not, Bool.not_true,
      decide_eq_false_iff_not] at he
    exact he
  | none =>
    rw [hlk] at he
    refine ⟨he, fun hkey => ?_⟩
    unfold hashLookup at hlk
    rw [Option.map_eq_none'] at hlk
    have h2 := List.find?_eq_none.mp hlk e he
    simp [hkey] at h2

/-- The descriptor of frame `k` (out-of-range reads give the zeroed
descriptor; all uses are in range). -/
def descAt (s : Sys) (k : Nat) : BufDesc :=
  s.bufTable.getD k BufDesc.zeroed

/-- What the `flushFile` loop requires of frame `k` to pass over it
cleanly: if the frame claims file `f`, it is valid, not pinned, and (when
dirty) its page is allocated in `f` so the write-back succeeds. -/
abbrev GoodFrame (s : Sys) (f : FileId) (k : Nat) : Prop :=
  (descAt s k).file = some f →
    ((descAt s k).valid = true ∧ (descAt s k).pinCnt ≤ 0 ∧
     ((descAt s k).dirty = true → s.files.hasPage f (descAt s k).pageNo = true))

theorem flushLoop_step_skip (f : FileId) (fuel i : Nat) (s : Sys)
    (hf : ¬(descAt s i).file = some f) :
    flushLoop f (fuel + 1) i s = flushLoop f fuel (i + 1) s := by
  have hf' : ¬(s.bufTable.getD i BufDesc.zeroed).file = some f := hf
  simp only [flushLoop]
  rw [if_neg (fun h => hf' h.2), if_neg (fun h => hf' h.2)]

theorem flushLoop_step_pinned (f : FileId) (fuel i : Nat) (s : Sys)
    (hv : (descAt s i).valid = true) (hf : (descAt s i).file = some f)
    (hpin : 0 < (descAt s i).pinCnt) :
    flushLoop f (fuel + 1) i s = (s, Status.PAGEPINNED) := by
  have hv' : (s.bufTable.getD i BufDesc.zeroed).valid = true := hv
  have hf' : (s.bufTable.getD i BufDesc.zeroed).file = some f := hf
  have hpin' : (s.bufTable.getD i BufDesc.zeroed).pinCnt > 0 := hpin
  simp only [flushLoop]
  rw [if_pos ⟨hv', hf'⟩, if_pos hpin']

theorem flushLoop_step_bad (f : FileId) (fuel i : Nat) (s : Sys)
    (hv : (descAt s i).valid = false) (hf : (descAt s i).file = some f) :
    flushLoop f (fuel + 1) i s = (s, Status.BADBUFFER) := by
  have hv' : (s.bufTable.getD i BufDesc.zeroed).valid = false := hv
  have hf' : (s.bufTable.getD i BufDesc.zeroed).file = some f := hf
  simp only [flushLoop]
  rw [if_neg (fun h => by rw [hv'] at h; exact absurd h.1 (by simp)),
    if_pos ⟨hv', hf'⟩]

theorem flushLoop_step_clean (f : FileId) (fuel i : Nat) (s : Sys)
    (hv : (descAt s i).valid = true) (hf : (descAt s i).file = some f)
    (hpin : ¬(0 < (descAt s i).pinCnt)) (hd : (descAt s i).dirty = false) :
    flushLoop f (fuel + 1) i s = flushLoop f fuel (i + 1)
      { s with
        hashTable := (hashRemove s.hashTable (some f) (descAt s i).pageNo).1
        bufTable := s.bufTable.set i
          { descAt s i with file := none, pageNo := -1, valid := false } } := by
  have hv' : (s.bufTable.getD i BufDesc.zeroed).valid = true := hv
  have hf' : (s.bufTable.getD i BufDesc.zeroed).file = some f := hf
  have hpin' : ¬((s.bufTable.getD i BufDesc.zeroed).pinCnt > 0) := hpin
  have hd' : (s.bufTable.getD i BufDesc.zeroed).dirty = false := hd
  simp only [flushLoop]
  rw [if_pos ⟨hv', hf'⟩, if_neg hpin']
  simp only [hd', descAt, ne_eq, Bool.false_eq_true, if_false,
    eq_self_iff_true, not_true, not_false_iff, if_true]

theorem flushLoop_step_dirty (f : FileId) (fuel i : Nat) (s : Sys)
    (hv : (descAt s i).valid = true) (hf : (descAt s i).file = some f)
    (hpin : ¬(0 < (descAt s i).pinCnt)) (hd : (descAt s i).dirty = true)
    (hp : s.files.hasPage f (descAt s i).pageNo = true) :
    flushLoop f (fuel + 1) i s = flushLoop f fuel (i + 1)
      { s with
        files := (s.files.writePage (some f) (descAt s i).pageNo
          (s.bufPool.getD i 0)).1
        hashTable := (hashRemove s.hashTable (some f) (descAt s i).pageNo).1
        bufTable := s.bufTable.set i
          { descAt s i with dirty := false, file := none, pageNo := -1
                            valid := false } } := by
  have hv' : (s.bufTable.getD i BufDesc.zeroed).valid = true := hv
  have hf' : (s.bufTable.getD i BufDesc.zeroed).file = some f := hf
  have hpin' : ¬((s.bufTable.getD i BufDesc.zeroed).pinCnt > 0) := hpin
  have hd' : (s.bufTable.getD i BufDesc.zeroed).dirty = true := hd
  have hst : (s.files.writePage (some f) (s.bufTable.getD i BufDesc.zeroed).pageNo
      (s.bufPool.getD i 0)).2 = Status.OK :=
    writePage_status_ok s.files f (descAt s i).pageNo (s.bufPool.getD i 0) hp
  simp only [flushLoop]
  rw [if_pos ⟨hv', hf'⟩, if_neg hpin']
  simp only [hd', hf', hst, descAt, ne_eq, if_true, eq_self_iff_true,
    not_true, if_false]

/-- The workhorse for the successful `flushFile` pass: if every frame from
`i` on that claims file `f` is valid, unpinned and (when dirty) has its
page allocated, and every remaining directory entry of `f` points at a
matching frame in `[i, numBufs)`, and the dirty owned frames carry
pairwise distinct page numbers, then the loop returns `OK`, leaves frames
below `i` alone, invalidates and cleans every owned frame, empties `f`'s
directory entries, writes every owned dirty frame back to its page and
touches no other page of `f`. -/
theorem flushLoop_ok_spec (f : FileId) (fuel : Nat) :
    ∀ (i : Nat) (s : Sys),
      i + fuel = s.numBufs →
      s.bufTable.length = s.numBufs →
      (∀ k, i ≤ k → k < s.numBufs → GoodFrame s f k) →
      (∀ p m, ((some f, p), m) ∈ s.hashTable →
        i ≤ m ∧ m < s.numBufs ∧ (descAt s m).file = some f ∧
        (descAt s m).pageNo = p) →
      (∀ k l, i ≤ k → k < l → l < s.numBufs →
        (descAt s k).file = some f → (descAt s k).dirty = true →
        (descAt s l).file = some f → (descAt s l).dirty = true →
        (descAt s k).pageNo ≠ (descAt s l).pageNo) →
      (flushLoop f fuel i s).2 = Status.OK ∧
      (∀ k, k < i → descAt (flushLoop f fuel i s).1 k = descAt s k) ∧
      (∀ k, i ≤ k → k < s.numBufs → (descAt s k).file = some f →
        (descAt (flushLoop f fuel i s).1 k).valid = false ∧
        (descAt (flushLoop f fuel i s).1 k).dirty = false ∧
        (descAt (flushLoop f fuel i s).1 k).file = none ∧
        (descAt (flushLoop f fuel i s).1 k).pageNo = -1) ∧
      (∀ p m, ((some f, p), m) ∉ (flushLoop f fuel i s).1.hashTable) ∧
      (∀ p, (∀ k, i ≤ k → k < s.numBufs → (descAt s k).file = some f →
          (descAt s k).dirty = true → (descAt s k).pageNo ≠ p) →
        (flushLoop f fuel i s).1.files.getPage f p = s.files.getPage f p) ∧
      (∀ k, i ≤ k → k < s.numBufs → (descAt s k).file = some f →
        (descAt s k).dirty = true →
        (flushLoop f fuel i s).1.files.getPage f (descAt s k).pageNo
          = some (s.bufPool.getD k 0)) := by
  induction fuel with
  | zero =>
    intro i s hn hlen hgood hhash hdis
    refine ⟨rfl, fun k _ => rfl, ?_, ?_, fun p _ => rfl, ?_⟩
    · intro k hik hk _
      exact ((by omega : False)).elim
    · intro p m hm
      obtain ⟨h1, h2, -, -⟩ := hhash p m hm
      exact ((by omega : False)).elim
    · intro k hik hk _ _
      exact ((by omega : False)).elim
  | succ fuel ih =>
    intro i s hn hlen hgood hhash hdis
    have hiin : i < s.numBufs := by omega
    have hibuf : i < s.bufTable.length := by omega
    by_cases hf : (descAt s i).file = some f
    · -- frame i belongs to f: it is processed
      obtain ⟨hv, hpinle, hdirty⟩ := hgood i (le_refl i) hiin hf
      have hpin' : ¬(0 < (descAt s i).pinCnt) := by omega
      by_cases hd : (descAt s i).dirty = true
      · -- dirty: write back, clear dirty, drop the entry, invalidate
        have hp := hdirty hd
        have hstep := flushLoop_step_dirty f fuel i s hv hf hpin' hd hp
        have hdesc_i : descAt ({ s with
              files := (s.files.writePage (some f) (descAt s i).pageNo
                (s.bufPool.getD i 0)).1
              hashTable := (hashRemove s.hashTable (some f) (descAt s i).pageNo).1
              bufTable := s.bufTable.set i
                { descAt s i with dirty := false, file := none, pageNo := -1
                                  valid := false } } : Sys) i
            = { descAt s i with dirty := false, file := none, pageNo := -1
                                valid := false } :=
          getD_set_self _ _ _ _ hibuf
        have hdesc_ne : ∀ k, k ≠ i → descAt ({ s with
              files := (s.files.writePage (some f) (descAt s i).pageNo
                (s.bufPool.getD i 0)).1
              hashTable := (hashRemove s.hashTable (some f) (descAt s i).pageNo).1
              bufTable := s.bufTable.set i
                { descAt s i with dirty := false, file := none, pageNo := -1
                                  valid := false } } : Sys) k = descAt s k := by
          intro k hk
          exact getD_set_ne _ _ _ _ _ (fun h => hk h.symm)
        obtain ⟨c1, c2, c3, c4, c5, c6⟩ := ih (i + 1) ({ s with
              files := (s.files.writePage (some f) (descAt s i).pageNo
                (s.bufPool.getD i 0)).1
              hashTable := (hashRemove s.hashTable (some f) (descAt s i).pageNo).1
              bufTable := s.bufTable.set i
                { descAt s i with dirty := false, file := none, pageNo := -1
                                  valid := false } } : Sys)
          ((by omega : (i + 1) + fuel = s.numBufs))
          (by simpa using hlen)
          (by
            intro k h1 h2 hkf
            rw [hdesc_ne k (by omega)] at hkf
            rw [hdesc_ne k (by omega)]
            obtain ⟨a1, a2, a3⟩ := hgood k (by omega) h2 hkf
            refine ⟨a1, a2, fun hkd => ?_⟩
            show ((s.files.writePage (some f) (descAt s i).pageNo
              (s.bufPool.getD i 0)).1).hasPage f (descAt s k).pageNo = true
            rw [writePage_hasPage _ _ _ _ _ hp]
            exact a3 hkd)
          (by
            intro p m hm
            obtain ⟨hmem, hkey⟩ := mem_hashRemove_imp _ _ _ _ hm
            obtain ⟨h1, h2, h3, h4⟩ := hhash p m hmem
            have hmne : m ≠ i := by
              intro hmi
              subst hmi
              exact hkey (by rw [← h4])
            refine ⟨by omega, h2, ?_, ?_⟩ <;>
              rw [hdesc_ne m hmne] <;> assumption)
          (by
            intro k l h1 h2 h3 b1 b2 b3 b4
            rw [hdesc_ne k (by omega)] at b1 b2
            rw [hdesc_ne l (by omega)] at b3 b4
            rw [hdesc_ne k (by omega), hdesc_ne l (by omega)]
            exact hdis k l (by omega) h2 h3 b1 b2 b3 b4)
        rw [hstep]
        refine ⟨c1, ?_, ?_, c4, ?_, ?_⟩
        · intro k hk
          rw [c2 k (by omega), hdesc_ne k (by omega)]
        · intro k h1 h2 hkf
          by_cases hk : k = i
          · subst hk
            rw [c2 k (by omega), hdesc_i]
            exact ⟨rfl, rfl, rfl, rfl⟩
          · exact c3 k (by omega) h2 (by rw [hdesc_ne k hk]; exact hkf)
        · intro p hnone
          rw [c5 p (by
            intro k h1 h2 hkf hkd
            rw [hdesc_ne k (by omega)] at hkf hkd
            rw [hdesc_ne k (by omega)]
            exact hnone k (by omega) h2 hkf hkd)]
          show ((s.files.writePage (some f) (descAt s i).pageNo
            (s.bufPool.getD i 0)).1).getPage f p = s.files.getPage f p
          exact writePage_getPage_ne _ _ _ _ _
            (fun h => hnone i (le_refl i) hiin hf hd h.symm) hp
        · intro k h1 h2 hkf hkd
          by_cases hk : k = i
          · subst hk
            rw [c5 (descAt s k).pageNo (by
              intro l hl1 hl2 hlf hld
              rw [hdesc_ne l (by omega)] at hlf hld
              rw [hdesc_ne l (by omega)]
              exact fun h =>
                hdis k l (le_refl k) (by omega) hl2 hkf hkd hlf hld h.symm)]
            show ((s.files.writePage (some f) (descAt s k).pageNo
              (s.bufPool.getD k 0)).1).getPage f (descAt s k).pageNo
              = some (s.bufPool.getD k 0)
            exact writePage_getPage_self _ _ _ _ hp
          · have := c6 k (by omega) h2
              (by rw [hdesc_ne k hk]; exact hkf)
              (by rw [hdesc_ne k hk]; exact hkd)
            rw [hdesc_ne k hk] at this
            exact this
      · -- clean: just drop the entry and invalidate
        have hd' : (descAt s i).dirty = false := by
          simpa using hd
        have hstep := flushLoop_step_clean f fuel i s hv hf hpin' hd'
        have hdesc_i : descAt ({ s with
              hashTable := (hashRemove s.hashTable (some f) (descAt s i).pageNo).1
              bufTable := s.bufTable.set i
                { descAt s i with file := none, pageNo := -1
                                  valid := false } } : Sys) i
            = { descAt s i with file := none, pageNo := -1, valid := false } :=
          getD_set_self _ _ _ _ hibuf
        have hdesc_ne : ∀ k, k ≠ i → descAt ({ s with
              hashTable := (hashRemove s.hashTable (some f) (descAt s i).pageNo).1
              bufTable := s.bufTable.set i
                { descAt s i with file := none, pageNo := -1
                                  valid := false } } : Sys) k = descAt s k := by
          intro k hk
          exact getD_set_ne _ _ _ _ _ (fun h => hk h.symm)
        obtain ⟨c1, c2, c3, c4, c5, c6⟩ := ih (i + 1) ({ s with
              hashTable := (hashRemove s.hashTable (some f) (descAt s i).pageNo).1
              bufTable := s.bufTable.set i
                { descAt s i with file := none, pageNo := -1
                                  valid := false } } : Sys)
          ((by omega : (i + 1) + fuel = s.numBufs))
          (by simpa using hlen)
          (by
            intro k h1 h2 hkf
            rw [hdesc_ne k (by omega)] at hkf
            rw [hdesc_ne k (by omega)]
            exact hgood k (by omega) h2 hkf)
          (by
            intro p m hm
            obtain ⟨hmem, hkey⟩ := mem_hashRemove_imp _ _ _ _ hm
            obtain ⟨h1, h2, h3, h4⟩ := hhash p m hmem
            have hmne : m ≠ i := by
              intro hmi
              subst hmi
              exact hkey (by rw [← h4])
            refine ⟨by omega, h2, ?_, ?_⟩ <;>
              rw [hdesc_ne m hmne] <;> assumption)
          (by
            intro k l h1 h2 h3 b1 b2 b3 b4
            rw [hdesc_ne k (by omega)] at b1 b2
            rw [hdesc_ne l (by omega)] at b3 b4
            rw [hdesc_ne k (by omega), hdesc_ne l (by omega)]
            exact hdis k l (by omega) h2 h3 b1 b2 b3 b4)
        rw [hstep]
        refine ⟨c1, ?_, ?_, c4, ?_, ?_⟩
        · intro k hk
          rw [c2 k (by omega), hdesc_ne k (by omega)]
        · intro k h1 h2 hkf
          by_cases hk : k = i
          · subst hk
            rw [c2 k (by omega), hdesc_i]
            exact ⟨rfl, hd', rfl, rfl⟩
          · exact c3 k (by omega) h2 (by rw [hdesc_ne k hk]; exact hkf)
        · intro p hnone
          exact c5 p (by
            intro k h1 h2 hkf hkd
            rw [hdesc_ne k (by omega)] at hkf hkd
            rw [hdesc_ne k (by omega)]
            exact hnone k (by omega) h2 hkf hkd)
        · intro k h1 h2 hkf hkd
          by_cases hk : k = i
          · subst hk
            rw [hd'] at hkd
            exact absurd hkd (by simp)
          · have := c6 k (by omega) h2
              (by rw [hdesc_ne k hk]; exact hkf)
              (by rw [hdesc_ne k hk]; exact hkd)
            rw [hdesc_ne k hk] at this
            exact this
    · -- frame i does not claim f: skipped
      have hstep := flushLoop_step_skip f fuel i s hf
      obtain ⟨c1, c2, c3, c4, c5, c6⟩ := ih (i + 1) s (by omega) hlen
        (fun k h1 h2 => hgood k (by omega) h2)
        (by
          intro p m hm
          obtain ⟨h1, h2, h3, h4⟩ := hhash p m hm
          have hmne : m ≠ i := fun hmi => hf (hmi ▸ h3)
          exact ⟨by omega, h2, h3, h4⟩)
        (fun k l h1 h2 h3 b1 b2 b3 b4 =>
          hdis k l (by omega) h2 h3 b1 b2 b3 b4)
      rw [hstep]
      refine ⟨c1, ?_, ?_, c4, ?_, ?_⟩
      · intro k hk
        exact c2 k (by omega)
      · intro k h1 h2 hkf
        by_cases hk : k = i
        · subst hk
          exact absurd hkf hf
        · exact c3 k (by omega) h2 hkf
      · intro p hnone
        exact c5 p (fun k h1 h2 hkf hkd =>
          hnone k (by omega) h2 hkf hkd)
      · intro k h1 h2 hkf hkd
        by_cases hk : k = i
        · subst hk
          exact absurd hkf hf
        · exact c6 k (by omega) h2 hkf hkd

/-- The aborting `flushFile` pass: when frame `j` of file `f` is valid and
pinned and every owned frame before it is flushable, the loop stops at `j`
with `PAGEPINNED`; frames before `i` are untouched and the owned frames in
`[i, j)` have already been flushed and invalidated. -/
theorem flushLoop_pinned_spec (f : FileId) (fuel : Nat) :
    ∀ (i : Nat) (s : Sys) (j : Nat),
      i + fuel = s.numBufs →
      s.bufTable.length = s.numBufs →
      i ≤ j → j < s.numBufs →
      (∀ k, i ≤ k → k < j → GoodFrame s f k) →
      (descAt s j).valid = true → (descAt s j).file = some f →
      0 < (descAt s j).pinCnt →
      (flushLoop f fuel i s).2 = Status.PAGEPINNED ∧
      (∀ k, k < i → descAt (flushLoop f fuel i s).1 k = descAt s k) ∧
      (∀ k, i ≤ k → k < j → (descAt s k).file = some f →
        (descAt (flushLoop f fuel i s).1 k).valid = false ∧
        (descAt (flushLoop f fuel i s).1 k).dirty = false ∧
        (descAt (flushLoop f fuel i s).1 k).file = none ∧
        (descAt (flushLoop f fuel i s).1 k).pageNo = -1) := by
  induction fuel with
  | zero =>
    intro i s j hn hlen hij hj hgood hv0 hf0 hpin0
    exact ((by omega : False)).elim
  | succ fuel ih =>
    intro i s j hn hlen hij hj hgood hv0 hf0 hpin0
    have hiin : i < s.numBufs := by omega
    have hibuf : i < s.bufTable.length := by omega
    by_cases hije : i = j
    · subst hije
      have hstep := flushLoop_step_pinned f fuel i s hv0 hf0 hpin0
      rw [hstep]
      refine ⟨rfl, fun k _ => rfl, ?_⟩
      intro k h1 h2 _
      exact ((by omega : False)).elim
    · have hilt : i < j := by omega
      by_cases hf : (descAt s i).file = some f
      · obtain ⟨hv, hpinle, hdirty⟩ := hgood i (le_refl i) hilt hf
        have hpin' : ¬(0 < (descAt s i).pinCnt) := by omega
        by_cases hd : (descAt s i).dirty = true
        · have hp := hdirty hd
          have hstep := flushLoop_step_dirty f fuel i s hv hf hpin' hd hp
          have hdesc_i : descAt ({ s with
                files := (s.files.writePage (some f) (descAt s i).pageNo
                  (s.bufPool.getD i 0)).1
                hashTable := (hashRemove s.hashTable (some f) (descAt s i).pageNo).1
                bufTable := s.bufTable.set i
                  { descAt s i with dirty := false, file := none, pageNo := -1
                                    valid := false } } : Sys) i
              = { descAt s i with dirty := false, file := none, pageNo := -1
                                  valid := false } :=
            getD_set_self _ _ _ _ hibuf
          have hdesc_ne : ∀ k, k ≠ i → descAt ({ s with
                files := (s.files.writePage (some f) (descAt s i).pageNo
                  (s.bufPool.getD i 0)).1
                hashTable := (hashRemove s.hashTable (some f) (descAt s i).pageNo).1
                bufTable := s.bufTable.set i
                  { descAt s i with dirty := false, file := none, pageNo := -1
                                    valid := false } } : Sys) k = descAt s k := by
            intro k hk
            exact getD_set_ne _ _ _ _ _ (fun h => hk h.symm)
          obtain ⟨c1, c2, c3⟩ := ih (i + 1) ({ s with
                files := (s.files.writePage (some f) (descAt s i).pageNo
                  (s.bufPool.getD i 0)).1
                hashTable := (hashRemove s.hashTable (some f) (descAt s i).pageNo).1
                bufTable := s.bufTable.set i
                  { descAt s i with dirty := false, file := none, pageNo := -1
                                    valid := false } } : Sys) j
            ((by omega : (i + 1) + fuel = s.numBufs))
            (by simpa using hlen)
            (by omega) hj
            (by
              intro k h1 h2 hkf
              rw [hdesc_ne k (by omega)] at hkf
              rw [hdesc_ne k (by omega)]
              obtain ⟨a1, a2, a3⟩ := hgood k (by omega) h2 hkf
              refine ⟨a1, a2, fun hkd => ?_⟩
              show ((s.files.writePage (some f) (descAt s i).pageNo
                (s.bufPool.getD i 0)).1).hasPage f (descAt s k).pageNo = true
              rw [writePage_hasPage _ _ _ _ _ hp]
              exact a3 hkd)
            (by rw [hdesc_ne j (by omega)]; exact hv0)
            (by rw [hdesc_ne j (by omega)]; exact hf0)
            (by rw [hdesc_ne j (by omega)]; exact hpin0)
          rw [hstep]
          refine ⟨c1, ?_, ?_⟩
          · intro k hk
            rw [c2 k (by omega), hdesc_ne k (by omega)]
          · intro k h1 h2 hkf
            by_cases hk : k = i
            · subst hk
              rw [c2 k (by omega), hdesc_i]
              exact ⟨rfl, rfl, rfl, rfl⟩
            · exact c3 k (by omega) h2 (by rw [hdesc_ne k hk]; exact hkf)
        · have hd' : (descAt s i).dirty = false := by simpa using hd
          have hstep := flushLoop_step_clean f fuel i s hv hf hpin' hd'
          have hdesc_i : descAt ({ s with
                hashTable := (hashRemove s.hashTable (some f) (descAt s i).pageNo).1
                bufTable := s.bufTable.set i
                  { descAt s i with file := none, pageNo := -1
                                    valid := false } } : Sys) i
              = { descAt s i with file := none, pageNo := -1, valid := false } :=
            getD_set_self _ _ _ _ hibuf
          have hdesc_ne : ∀ k, k ≠ i → descAt ({ s with
                hashTable := (hashRemove s.hashTable (some f) (descAt s i).pageNo).1
                bufTable := s.bufTable.set i
                  { descAt s i with file := none, pageNo := -1
                                    valid := false } } : Sys) k = descAt s k := by
            intro k hk
            exact getD_set_ne _ _ _ _ _ (fun h => hk h.symm)
          obtain ⟨c1, c2, c3⟩ := ih (i + 1) ({ s with
                hashTable := (hashRemove s.hashTable (some f) (descAt s i).pageNo).1
                bufTable := s.bufTable.set i
                  { descAt s i with file := none, pageNo := -1
                                    valid := false } } : Sys) j
            ((by omega : (i + 1) + fuel = s.numBufs))
            (by simpa using hlen)
            (by omega) hj
            (by
              intro k h1 h2 hkf
              rw [hdesc_ne k (by omega)] at hkf
              rw [hdesc_ne k (by omega)]
              exact hgood k (by omega) h2 hkf)
            (by rw [hdesc_ne j (by omega)]; exact hv0)
            (by rw [hdesc_ne j (by omega)]; exact hf0)
            (by rw [hdesc_ne j (by omega)]; exact hpin0)
          rw [hstep]
          refine ⟨c1, ?_, ?_⟩
          · intro k hk
            rw [c2 k (by omega), hdesc_ne k (by omega)]
          · intro k h1 h2 hkf
            by_cases hk : k = i
            · subst hk
              rw [c2 k (by omega), hdesc_i]
              exact ⟨rfl, hd', rfl, rfl⟩
            · exact c3 k (by omega) h2 (by rw [hdesc_ne k hk]; exact hkf)
      · have hstep := flushLoop_step_skip f fuel i s hf
        obtain ⟨c1, c2, c3⟩ := ih (i + 1) s j (by omega) hlen (by omega) hj
          (fun k h1 h2 => hgood k (by omega) h2) hv0 hf0 hpin0
        rw [hstep]
        refine ⟨c1, ?_, ?_⟩
        · intro k hk
          exact c2 k (by omega)
        · intro k h1 h2 hkf
          by_cases hk : k = i
          · subst hk
            exact absurd hkf hf
          · exact c3 k (by omega) h2 hkf

/-- The inconsistency case of `flushFile`: when frame `j` claims file `f`
but is not valid, and every owned frame before it is flushable, the loop
reports `BADBUFFER`. -/
theorem flushLoop_bad_spec (f : FileId) (fuel : Nat) :
    ∀ (i : Nat) (s : Sys) (j : Nat),
      i + fuel = s.numBufs →
      s.bufTable.length = s.numBufs →
      i ≤ j → j < s.numBufs →
      (∀ k, i ≤ k → k < j → GoodFrame s f k) →
      (descAt s j).valid = false → (descAt s j).file = some f →
      (flushLoop f fuel i s).2 = Status.BADBUFFER := by
  induction fuel with
  | zero =>
    intro i s j hn hlen hij hj hgood hv0 hf0
    exact ((by omega : False)).elim
  | succ fuel ih =>
    intro i s j hn hlen hij hj hgood hv0 hf0
    have hiin : i < s.numBufs := by omega
    have hibuf : i < s.bufTable.length := by omega
    by_cases hije : i = j
    · subst hije
      rw [flushLoop_step_bad f fuel i s hv0 hf0]
    · have hilt : i < j := by omega
      by_cases hf : (descAt s i).file = some f
      · obtain ⟨hv, hpinle, hdirty⟩ := hgood i (le_refl i) hilt hf
        have hpin' : ¬(0 < (descAt s i).pinCnt) := by omega
        by_cases hd : (descAt s i).dirty = true
        · have hp := hdirty hd
          have hstep := flushLoop_step_dirty f fuel i s hv hf hpin' hd hp
          have hdesc_ne : ∀ k, k ≠ i → descAt ({ s with
                files := (s.files.writePage (some f) (descAt s i).pageNo
                  (s.bufPool.getD i 0)).1
                hashTable := (hashRemove s.hashTable (some f) (descAt s i).pageNo).1
                bufTable := s.bufTable.set i
                  { descAt s i with dirty := false, file := none, pageNo := -1
                                    valid := false } } : Sys) k = descAt s k := by
            intro k hk
            exact getD_set_ne _ _ _ _ _ (fun h => hk h.symm)
          have := ih (i + 1) ({ s with
                files := (s.files.writePage (some f) (descAt s i).pageNo
                  (s.bufPool.getD i 0)).1
                hashTable := (hashRemove s.hashTable (some f) (descAt s i).pageNo).1
                bufTable := s.bufTable.set i
                  { descAt s i with dirty := false, file := none, pageNo := -1
                                    valid := false } } : Sys) j
            ((by omega : (i + 1) + fuel = s.numBufs))
            (by simpa using hlen)
            (by omega) hj
            (by
              intro k h1 h2 hkf
              rw [hdesc_ne k (by omega)] at hkf
              rw [hdesc_ne k (by omega)]
              obtain ⟨a1, a2, a3⟩ := hgood k (by omega) h2 hkf
              refine ⟨a1, a2, fun hkd => ?_⟩
              show ((s.files.writePage (some f) (descAt s i).pageNo
                (s.bufPool.getD i 0)).1).hasPage f (descAt s k).pageNo = true
              rw [writePage_hasPage _ _ _ _ _ hp]
              exact a3 hkd)
            (by rw [hdesc_ne j (by omega)]; exact hv0)
            (by rw [hdesc_ne j (by omega)]; exact hf0)
          rw [hstep]
          exact this
        · have hd' : (descAt s i).dirty = false := by simpa using hd
          have hstep := flushLoop_step_clean f fuel i s hv hf hpin' hd'
          have hdesc_ne : ∀ k, k ≠ i → descAt ({ s with
                hashTable := (hashRemove s.hashTable (some f) (descAt s i).pageNo).1
                bufTable := s.bufTable.set i
                  { descAt s i with file := none, pageNo := -1
                                    valid := false } } : Sys) k = descAt s k := by
            intro k hk
            exact getD_set_ne _ _ _ _ _ (fun h => hk h.symm)
          have := ih (i + 1) ({ s with
                hashTable := (hashRemove s.hashTable (some f) (descAt s i).pageNo).1
                bufTable := s.bufTable.set i
                  { descAt s i with file := none, pageNo := -1
                                    valid := false } } : Sys) j
            ((by omega : (i + 1) + fuel = s.numBufs))
            (by simpa using hlen)
            (by omega) hj
            (by
              intro k h1 h2 hkf
              rw [hdesc_ne k (by omega)] at hkf
              rw [hdesc_ne k (by omega)]
              exact hgood k (by omega) h2 hkf)
            (by rw [hdesc_ne j (by omega)]; exact hv0)
            (by rw [hdesc_ne j (by omega)]; exact hf0)
          rw [hstep]
          exact this
      · have hstep := flushLoop_step_skip f fuel i s hf
        rw [hstep]
        exact ih (i + 1) s j (by omega) hlen (by omega) hj
          (fun k h1 h2 => hgood k (by omega) h2) hv0 hf0

/-- C4.  `flushFile(file)`: (1) when every frame claiming `file` is valid
and unpinned (with dirty pages allocated, directory entries matching their
frames, and dirty pages distinct), it writes every dirty frame of `file`
back, clears the dirty bits, removes all of `file`'s directory entries,
invalidates the frames and returns `OK`; (2) when frame `j` of `file` is
pinned and the owned frames before it are flushable, it returns
`PAGEPINNED` and the owned frames visited earlier remain flushed and
invalidated — the operation is not all-or-nothing; (3) a frame claiming
`file` while invalid (owned frames before it flushable) yields
`BADBUFFER`. -/
theorem flushFile_spec (s : Sys) (f : FileId)
    (hlen : s.bufTable.length = s.numBufs) :
    ((∀ k, k < s.numBufs → GoodFrame s f k) →
      (∀ p m, ((some f, p), m) ∈ s.hashTable →
        m < s.numBufs ∧ (descAt s m).file = some f ∧ (descAt s m).pageNo = p) →
      (∀ k l, k < l → l < s.numBufs →
        (descAt s k).file = some f → (descAt s k).dirty = true →
        (descAt s l).file = some f → (descAt s l).dirty = true →
        (descAt s k).pageNo ≠ (descAt s l).pageNo) →
      (flushFile s f).2 = Status.OK ∧
      (∀ k, k < s.numBufs → (descAt s k).file = some f →
        (descAt (flushFile s f).1 k).valid = false ∧
        (descAt (flushFile s f).1 k).dirty = false ∧
        (descAt (flushFile s f).1 k).file = none) ∧
      (∀ p m, ((some f, p), m) ∉ (flushFile s f).1.hashTable) ∧
      (∀ k, k < s.numBufs → (descAt s k).file = some f →
        (descAt s k).dirty = true →
        (flushFile s f).1.files.getPage f (descAt s k).pageNo
          = some (s.bufPool.getD k 0))) ∧
    (∀ j, j < s.numBufs →
      (∀ k, k < j → GoodFrame s f k) →
      (descAt s j).valid = true → (descAt s j).file = some f →
      0 < (descAt s j).pinCnt →
      (flushFile s f).2 = Status.PAGEPINNED ∧
      (∀ k, k < j → (descAt s k).file = some f →
        (descAt (flushFile s f).1 k).valid = false ∧
        (descAt (flushFile s f).1 k).dirty = false)) ∧
    (∀ j, j < s.numBufs →
      (∀ k, k < j → GoodFrame s f k) →
      (descAt s j).valid = false → (descAt s j).file = some f →
      (flushFile s f).2 = Status.BADBUFFER) := by
  refine ⟨?_, ?_, ?_⟩
  · intro hgood hhash hdis
    obtain ⟨c1, -, c3, c4, -, c6⟩ := flushLoop_ok_spec f s.numBufs 0 s
      (by omega) hlen
      (fun k _ h2 => hgood k h2)
      (fun p m hm => ⟨Nat.zero_le m, (hhash p m hm).1, (hhash p m hm).2.1,
        (hhash p m hm).2.2⟩)
      (fun k l _ h2 h3 b1 b2 b3 b4 => hdis k l h2 h3 b1 b2 b3 b4)
    refine ⟨c1, ?_, c4, ?_⟩
    · intro k h2 hkf
      obtain ⟨a1, a2, a3, -⟩ := c3 k (Nat.zero_le k) h2 hkf
      exact ⟨a1, a2, a3⟩
    · intro k h2 hkf hkd
      exact c6 k (Nat.zero_le k) h2 hkf hkd
  · intro j hj hgood hv hf0 hpin
    obtain ⟨c1, -, c3⟩ := flushLoop_pinned_spec f s.numBufs 0 s j (by omega)
      hlen (Nat.zero_le j) hj (fun k _ h2 => hgood k h2) hv hf0 hpin
    refine ⟨c1, ?_⟩
    intro k hk hkf
    obtain ⟨a1, a2, -, -⟩ := c3 k (Nat.zero_le k) hk hkf
    exact ⟨a1, a2⟩
  · intro j hj hgood hv hf0
    exact flushLoop_bad_spec f s.numBufs 0 s j (by omega) hlen (Nat.zero_le j)
      hj (fun k _ h2 => hgood k h2) hv hf0

/-- A 2-frame pool with one dirty, unpinned frame of file 0 (page 1) and
one free frame: `flushFile` must succeed on it. -/
def sysFlushOk : Sys :=
  { numBufs := 2
    bufTable := [
      { frameNo := 0, file := some 0, pageNo := 1, valid := true
        dirty := true, refbit := false, pinCnt := 0 },
      { frameNo := 1, file := none, pageNo := 0, valid := false
        dirty := false, refbit := false, pinCnt := 0 }]
    bufPool := [77, 0]
    hashTable := [((some 0, 1), 0)]
    clockHand := 1
    diskreads := 0
    files := exampleFiles }

/-- A 1-frame pool whose frame claims file 0 but is invalid: the
`BADBUFFER` inconsistency. -/
def sysBad : Sys :=
  { numBufs := 1
    bufTable := [
      { frameNo := 0, file := some 0, pageNo := 1, valid := false
        dirty := false, refbit := false, pinCnt := 0 }]
    bufPool := [0]
    hashTable := []
    clockHand := 0
    diskreads := 0
    files := exampleFiles }

/-- C4 witness: the three `flushFile` outcomes at concrete pools. -/
theorem flushFile_spec_witness :
    (flushFile sysFlushOk 0).2 = Status.OK ∧
    (flushFile pinnedSys 0).2 = Status.PAGEPINNED ∧
    (flushFile sysBad 0).2 = Status.BADBUFFER :=
  ⟨((flushFile_spec sysFlushOk 0 rfl).1 (by decide)
      (by
        intro p m hm
        simp only [sysFlushOk, List.mem_singleton] at hm
        injection hm with h1 h2
        injection h1 with h3 h4
        subst h4
        subst h2
        decide)
      (by
        intro k l h1 h2 b1 b2 b3 b4
        have hn2 : sysFlushOk.numBufs = 2 := rfl
        have hl : l = 1 := by omega
        subst hl
        exact absurd b3 (by decide))).1,
   ((flushFile_spec pinnedSys 0 rfl).2.1 0 (by decide)
      (fun k hk => absurd hk (by omega)) (by decide) (by decide) (by decide)).1,
   (flushFile_spec sysBad 0 rfl).2.2 0 (by decide)
      (fun k hk => absurd hk (by omega)) (by decide) (by decide)⟩
